import Mathlib

/-!
GMS filters provider: the parameter marshalling layer and the design/apply entry points.

A shallow embedding of `IIRFilterParameters.cpp` and `FilterProvider.cpp`.

* A `double` is only ever moved by the marshalling code, so the element type of every
  coefficient vector is a type parameter `α`.
* An `int` is an `Int`; a signed product that leaves the 32-bit range is undefined behaviour.
* A fixed-width C array is a `List` whose length is the array's capacity.
* A read or write outside a vector or an array is undefined behaviour: the function has no
  result (`none`, or `Outcome.undefined`).
-/

namespace GmsFilters

/-! ## Machine integers -/

/-- Largest value of a C `int`. -/
def INT_MAX : Int := 2147483647

/-- Smallest value of a C `int`. -/
def INT_MIN : Int := -2147483648

/-- Signed `int` multiplication: defined only when the product is representable. -/
def int_mul (a b : Int) : Option Int :=
  if INT_MIN ≤ a * b ∧ a * b ≤ INT_MAX then some (a * b) else none

/-- Conversion of an `int` to `size_t` for a mixed comparison (`size != v.size()`):
reduction modulo `2 ^ 32`, the width of `size_t` on the 32-bit WebAssembly target the
`__EMSCRIPTEN__` branch is compiled for. -/
def size_t_of_int (x : Int) : Nat := (x % 4294967296).toNat

/-- Conversion `bool → int`. -/
def int_of_bool (b : Bool) : Int := if b then 1 else 0

/-- Conversion `int → bool`. -/
def bool_of_int (x : Int) : Bool := decide (x ≠ 0)

/-! ## Outcomes -/

/-- What running a piece of the program gives: a value, a reported failure, or nothing at
all because the run has undefined behaviour. -/
inductive Outcome (ε β : Type) where
  | value (v : β)
  | failure (e : ε)
  | undefined
  deriving DecidableEq, Repr

/-- The exception `std::invalid_argument` with its message. -/
structure invalid_argument where
  what : String
  deriving DecidableEq, Repr

/-! ## The data model -/

/-- The class `IIRFilterParameters`: three coefficient vectors, the designed flag, the
number of second-order sections and the group delay. -/
structure IIRFilterParameters (α : Type) where
  sosNumerator : List α
  sosDenominator : List α
  sosCoefficients : List α
  isDesigned : Bool
  numberOfSos : Int
  groupDelay : α
  deriving DecidableEq, Repr

/-- The C struct `IIR_FILTER_PARAMETERS`, with the fields `to_cstruct` and `from_cstruct`
touch. Its declaration is in a header outside the sources; the three arrays are fixed-width,
so each is a list whose length is the capacity, and `is_designed` is an `int` flag. -/
structure IIR_FILTER_PARAMETERS (α : Type) where
  sos_numerator : List α
  sos_denominator : List α
  sos_coefficients : List α
  is_designed : Int
  num_sos : Int
  group_delay : α
  deriving DecidableEq, Repr

/-- All three arrays of the struct have the declared capacity `cap`. -/
def IIR_FILTER_PARAMETERS.hasCapacity {α : Type} (c : IIR_FILTER_PARAMETERS α) (cap : Nat) : Prop :=
  c.sos_numerator.length = cap ∧ c.sos_denominator.length = cap ∧ c.sos_coefficients.length = cap

instance {α : Type} (c : IIR_FILTER_PARAMETERS α) (cap : Nat) : Decidable (c.hasCapacity cap) := by
  unfold IIR_FILTER_PARAMETERS.hasCapacity
  infer_instance

/-! ## `IIRFilterParameters.cpp` -/

/-- The overload of `IIRFilterParameters::build` on vectors (lines 15-23): the constructor
call, nothing else. -/
def IIRFilterParameters.build {α : Type} (sosNumerator sosDenominator sosCoefficients : List α)
    (isDesigned : Bool) (numberOfSos : Int) (groupDelay : α) : IIRFilterParameters α :=
  { sosNumerator := sosNumerator, sosDenominator := sosDenominator,
    sosCoefficients := sosCoefficients, isDesigned := isDesigned,
    numberOfSos := numberOfSos, groupDelay := groupDelay }

/-- The condition of the `if` on line 38, with C++ precedence: `&&` binds tighter than
`||`, so it reads `a || (b && c)`. -/
def build_val.sizeMismatch (size : Int) (numLen denLen coefLen : Nat) : Bool :=
  (size_t_of_int size != numLen) || ((size_t_of_int size != denLen) && (size_t_of_int size != coefLen))

/-- The overload of `IIRFilterParameters::build` on array values (lines 26-45), the
validating one. The three arguments are the vectors `vecFromJSArray` yields. -/
def IIRFilterParameters.build_val {α : Type} (sosNumerator sosDenominator sosCoefficients : List α)
    (isDesigned : Bool) (numberOfSos : Int) (groupDelay : α) :
    Outcome invalid_argument (IIRFilterParameters α) :=
  match int_mul numberOfSos 3 with
  | none => Outcome.undefined
  | some size =>
    if build_val.sizeMismatch size sosNumerator.length sosDenominator.length sosCoefficients.length then
      Outcome.failure
        ⟨"Invalid size (length) for sosNumerator or sosDenominator or sosCoefficients " ++ toString size⟩
    else
      Outcome.value
        { sosNumerator := sosNumerator, sosDenominator := sosDenominator,
          sosCoefficients := sosCoefficients, isDesigned := isDesigned,
          numberOfSos := numberOfSos, groupDelay := groupDelay }

/-- One pass of the loop body of `to_cstruct` (lines 75-77) at index `i`: three reads from the
vectors, three writes into the arrays. Any access out of range is undefined behaviour. -/
def to_cstruct.body {α : Type} (ifp : IIRFilterParameters α) (defStruct : IIR_FILTER_PARAMETERS α)
    (i : Nat) : Option (IIR_FILTER_PARAMETERS α) :=
  match ifp.sosNumerator[i]?, ifp.sosDenominator[i]?, ifp.sosCoefficients[i]? with
  | some n, some d, some c =>
    if i < defStruct.sos_numerator.length ∧ i < defStruct.sos_denominator.length
        ∧ i < defStruct.sos_coefficients.length then
      some { defStruct with
        sos_numerator := defStruct.sos_numerator.set i n
        sos_denominator := defStruct.sos_denominator.set i d
        sos_coefficients := defStruct.sos_coefficients.set i c }
    else none
  | _, _, _ => none

/-- The function `IIRFilterParameters::to_cstruct` (lines 64-81). `defStruct` is the local
struct as declared on line 66: uninitialised, so its contents on entry are arbitrary. The
loop runs `i = 0, 1, ..., size - 1` (not at all when `size ≤ 0`). -/
def IIRFilterParameters.to_cstruct {α : Type} (defStruct : IIR_FILTER_PARAMETERS α)
    (ifp : IIRFilterParameters α) : Option (IIR_FILTER_PARAMETERS α) :=
  match int_mul ifp.numberOfSos 3 with
  | none => none
  | some size =>
    (List.range size.toNat).foldlM (to_cstruct.body ifp)
      { defStruct with
        group_delay := ifp.groupDelay
        is_designed := int_of_bool ifp.isDesigned
        num_sos := ifp.numberOfSos }

/-- The range constructor `std::vector<double>(arr, arr + size)` on a fixed-width array:
the first `size` entries, provided `0 ≤ size ≤ capacity`; otherwise the range is invalid. -/
def vector_of_range {α : Type} (arr : List α) (size : Int) : Option (List α) :=
  if 0 ≤ size ∧ size.toNat ≤ arr.length then some (arr.take size.toNat) else none

/-- The function `IIRFilterParameters::from_cstruct` (lines 83-93): the product
`num_sos * 3`, three range constructions from the arrays, then the constructor. -/
def IIRFilterParameters.from_cstruct {α : Type} (ifp : IIR_FILTER_PARAMETERS α) :
    Option (IIRFilterParameters α) :=
  match int_mul ifp.num_sos 3 with
  | none => none
  | some size =>
    match vector_of_range ifp.sos_numerator size, vector_of_range ifp.sos_denominator size,
        vector_of_range ifp.sos_coefficients size with
    | some sosNumerator, some sosDenominator, some sosCoefficients =>
      some
        { sosNumerator := sosNumerator, sosDenominator := sosDenominator,
          sosCoefficients := sosCoefficients, isDesigned := bool_of_int ifp.is_designed,
          numberOfSos := ifp.num_sos, groupDelay := ifp.group_delay }
    | _, _, _ => none

/-! ## The design and apply entry points

`FilterProvider.cpp` hands a C struct to `gms_filter_design_iir` and `gms_filter_apply`. Those
two functions, the class `LinearIIRFilterDescription` and its conversions live outside the
sources at hand. The two entry points take their callee as a parameter; the callees, the
class and its conversions are also modelled from the specification. The floating-point
formulas (warping, pole transformation, bilinear map, the biquad recursion) are parameters. -/

/-- Modelled from the spec: the error kinds of section 7 (the sources declare none). -/
inductive FilterError where
  | InvalidOrder
  | InvalidBand
  | InvalidSampleRate
  | UndesignedFilter
  | InvalidStride
  deriving DecidableEq, Repr

/-- The enum `FILTER_BAND_TYPE` named in `filter_iir.h`; its values are those of the
specification's FilterBandType. -/
inductive FILTER_BAND_TYPE where
  | LOWPASS
  | HIGHPASS
  | BANDPASS
  | BANDREJECT
  deriving DecidableEq, Repr

/-- The enum `FILTER_DESIGN_MODEL` named in `filter_iir.h`. -/
inductive FILTER_DESIGN_MODEL where
  | BUTTERWORTH
  deriving DecidableEq, Repr

/-- The C struct `LINEAR_IIR_FILTER_DESCRIPTION`, with the fields the test prints
(`gms_filter_tests.cpp`, lines 20-27 and 37-46). -/
structure LINEAR_IIR_FILTER_DESCRIPTION (α : Type) where
  design_model : FILTER_DESIGN_MODEL
  band_type : FILTER_BAND_TYPE
  cutoff_frequency_low : α
  cutoff_frequency_high : α
  filter_order : Int
  sample_rate : α
  zero_phase : Int
  taper : Int
  iir_filter_parameters : IIR_FILTER_PARAMETERS α
  deriving DecidableEq, Repr

/-- Modelled from the spec: the class `LinearIIRFilterDescription` (its header is not in the
sources): the design inputs of one filter and the parameters the design attaches
(specification, section 3, LinearFilterDescription). -/
structure LinearIIRFilterDescription (α : Type) where
  parameters : IIRFilterParameters α
  designModel : FILTER_DESIGN_MODEL
  bandType : FILTER_BAND_TYPE
  cutoffFrequencyLow : α
  cutoffFrequencyHigh : α
  filterOrder : Int
  sampleRate : α
  zeroPhase : Bool
  taper : Bool
  deriving DecidableEq, Repr

/-- Modelled from the spec: `LinearIIRFilterDescription::to_cstruct` (not in the sources), the
thin conversion of the value object to the plain struct: every design input is copied and
the parameters go through `IIRFilterParameters::to_cstruct`. -/
def LinearIIRFilterDescription.to_cstruct {α : Type} (uninit : IIR_FILTER_PARAMETERS α)
    (d : LinearIIRFilterDescription α) : Option (LINEAR_IIR_FILTER_DESCRIPTION α) :=
  match IIRFilterParameters.to_cstruct uninit d.parameters with
  | none => none
  | some p =>
    some
      { design_model := d.designModel, band_type := d.bandType,
        cutoff_frequency_low := d.cutoffFrequencyLow,
        cutoff_frequency_high := d.cutoffFrequencyHigh,
        filter_order := d.filterOrder, sample_rate := d.sampleRate,
        zero_phase := int_of_bool d.zeroPhase, taper := int_of_bool d.taper,
        iir_filter_parameters := p }

/-- Modelled from the spec: `LinearIIRFilterDescription::from_cstruct` (not in the sources),
the conversion back: every design input is copied and the parameters go through
`IIRFilterParameters::from_cstruct`. -/
def LinearIIRFilterDescription.from_cstruct {α : Type} (c : LINEAR_IIR_FILTER_DESCRIPTION α) :
    Option (LinearIIRFilterDescription α) :=
  match IIRFilterParameters.from_cstruct c.iir_filter_parameters with
  | none => none
  | some p =>
    some
      { parameters := p, designModel := c.design_model, bandType := c.band_type,
        cutoffFrequencyLow := c.cutoff_frequency_low,
        cutoffFrequencyHigh := c.cutoff_frequency_high,
        filterOrder := c.filter_order, sampleRate := c.sample_rate,
        zeroPhase := bool_of_int c.zero_phase, taper := bool_of_int c.taper }

/-- Modelled from the spec: the result of a C call that works in place on a caller-owned
object, namely the error it reports, if any, and the object as the call leaves it. -/
structure InPlace (σ : Type) where
  error : Option FilterError
  state : σ
  deriving DecidableEq, Repr

/-! ### Design -/

/-- Modelled from the spec: the tag of a stored pole (section 3, AnalogPole), a single real
pole or one member of a conjugate pair. -/
inductive PoleType where
  | real
  | complex
  deriving DecidableEq, Repr

/-- Modelled from the spec: an analog pole (section 3, AnalogPole) on the unit circle, given
by its angle in units of π (the pole is `cos (π·angle) + i·sin (π·angle)`), with its tag. -/
structure AnalogPole where
  angle : ℚ
  tag : PoleType
  deriving DecidableEq, Repr

/-- Modelled from the spec: `butterworth_analog_design` (only declared in `filter_iir.h`),
section 4.1: order below 1 fails with `InvalidOrder`; for `k = 0 .. order - 1` the pole
angle is `π (2k + order + 1) / (2 order)`; of a conjugate pair (`k` and `order - 1 - k`) only
the first is stored, tagged complex; the middle pole of an odd order is real. -/
def butterworth_analog_design (order : Int) : Except FilterError (List AnalogPole) :=
  if order < 1 then Except.error FilterError.InvalidOrder
  else
    Except.ok
      ((List.range order.toNat).filterMap fun k =>
        if 2 * k + 1 < order.toNat then
          some ⟨(2 * (k : ℚ) + order + 1) / (2 * order), PoleType.complex⟩
        else if 2 * k + 1 = order.toNat then
          some ⟨(2 * (k : ℚ) + order + 1) / (2 * order), PoleType.real⟩
        else none)

/-- Modelled from the spec: a second-order section (section 3), three numerator and three
denominator coefficients. -/
structure SosSection (α : Type) where
  b0 : α
  b1 : α
  b2 : α
  a0 : α
  a1 : α
  a2 : α
  deriving DecidableEq, Repr

/-- Modelled from the spec: the floating-point formulas of the design (sections 4.2 to 4.4),
which this development does not fix: the tangent warp of a cutoff at a sample rate, the
analog section of a stored pole for each band type, and the bilinear map of an analog section
at a sample rate together with the group delay it contributes. -/
structure DesignNumerics (α : Type) where
  tangent_warp : α → α → α
  lp_to_lp : AnalogPole → α → SosSection α
  lp_to_hp : AnalogPole → α → SosSection α
  lp_to_bp : AnalogPole → α → α → SosSection α × SosSection α
  lp_to_br : AnalogPole → α → α → SosSection α × SosSection α
  bilinear : α → SosSection α → SosSection α × α

/-- Modelled from the spec: the cutoffs a band type requires (section 4.2). The passband runs
from the low to the high cutoff, so LOWPASS reads the high one, HIGHPASS the low one and the
band filters both; the specification does not say which of the two LOWPASS and HIGHPASS
read. -/
def requiredCutoffs {α : Type} (band_type : FILTER_BAND_TYPE) (fl fh : α) : List α :=
  match band_type with
  | FILTER_BAND_TYPE.LOWPASS => [fh]
  | FILTER_BAND_TYPE.HIGHPASS => [fl]
  | FILTER_BAND_TYPE.BANDPASS => [fl, fh]
  | FILTER_BAND_TYPE.BANDREJECT => [fl, fh]

/-- Modelled from the spec: section 4.2, the band is invalid when `fl ≥ fh` for BANDPASS or
BANDREJECT, or when a required cutoff is not positive. -/
def invalidBand {α : Type} [LinearOrderedField α] (band_type : FILTER_BAND_TYPE) (fl fh : α) :
    Bool :=
  ((band_type = FILTER_BAND_TYPE.BANDPASS ∨ band_type = FILTER_BAND_TYPE.BANDREJECT) ∧ fl ≥ fh)
    || (requiredCutoffs band_type fl fh).any fun f => decide (f ≤ 0)

/-- Modelled from the spec: section 4.3, the sample rate is invalid when `fs ≤ 0` or a
required cutoff is at or above `fs / 2`. -/
def invalidSampleRate {α : Type} [LinearOrderedField α] (band_type : FILTER_BAND_TYPE)
    (fl fh fs : α) : Bool :=
  decide (fs ≤ 0) || (requiredCutoffs band_type fl fh).any fun f => decide (f ≥ fs / 2)

/-- Modelled from the spec: section 4.2 on pre-warped cutoffs, one analog section for each
stored pole of a LOWPASS or HIGHPASS filter; for the band filters the order doubles, so a
stored conjugate pair gives two sections and a real pole one. -/
def analogSections {α : Type} (num : DesignNumerics α) (band_type : FILTER_BAND_TYPE)
    (flw fhw : α) (poles : List AnalogPole) : List (SosSection α) :=
  match band_type with
  | FILTER_BAND_TYPE.LOWPASS => poles.map fun p => num.lp_to_lp p fhw
  | FILTER_BAND_TYPE.HIGHPASS => poles.map fun p => num.lp_to_hp p flw
  | FILTER_BAND_TYPE.BANDPASS =>
    poles.flatMap fun p =>
      match p.tag with
      | PoleType.complex => [(num.lp_to_bp p flw fhw).1, (num.lp_to_bp p flw fhw).2]
      | PoleType.real => [(num.lp_to_bp p flw fhw).1]
  | FILTER_BAND_TYPE.BANDREJECT =>
    poles.flatMap fun p =>
      match p.tag with
      | PoleType.complex => [(num.lp_to_br p flw fhw).1, (num.lp_to_br p flw fhw).2]
      | PoleType.real => [(num.lp_to_br p flw fhw).1]

/-- Modelled from the spec: the design's write of `coeffs` into a fixed-width array from
index 0. The entries after them keep their contents; more coefficients than the array holds
is a write past its end. -/
def writeArray {α : Type} (arr coeffs : List α) : Option (List α) :=
  if coeffs.length ≤ arr.length then some (coeffs ++ arr.drop coeffs.length) else none

/-- Modelled from the spec: `gms_filter_design_iir` (not in the sources), the single-filter
design of sections 4.1 to 4.4 on the C struct. The validations come first, in the order of
the stages, and a failed one leaves the struct as it was (section 7). On success the
sections `sn`, `sd` of `filter_design_iir` are written to the two arrays, `num_sos` is their
number, the group delay is the sum over the sections and `is_designed` is set. -/
def gms_filter_design_iir {α : Type} [LinearOrderedField α] (num : DesignNumerics α)
    (d : LINEAR_IIR_FILTER_DESCRIPTION α) : Option (InPlace (LINEAR_IIR_FILTER_DESCRIPTION α)) :=
  match butterworth_analog_design d.filter_order with
  | Except.error e => some ⟨some e, d⟩
  | Except.ok poles =>
    if invalidBand d.band_type d.cutoff_frequency_low d.cutoff_frequency_high then
      some ⟨some FilterError.InvalidBand, d⟩
    else if invalidSampleRate d.band_type d.cutoff_frequency_low d.cutoff_frequency_high
        d.sample_rate then
      some ⟨some FilterError.InvalidSampleRate, d⟩
    else
      let flw := num.tangent_warp d.cutoff_frequency_low d.sample_rate
      let fhw := num.tangent_warp d.cutoff_frequency_high d.sample_rate
      let digital := (analogSections num d.band_type flw fhw poles).map (num.bilinear d.sample_rate)
      let sn := digital.flatMap fun s => [s.1.b0, s.1.b1, s.1.b2]
      let sd := digital.flatMap fun s => [s.1.a0, s.1.a1, s.1.a2]
      match writeArray d.iir_filter_parameters.sos_numerator sn,
          writeArray d.iir_filter_parameters.sos_denominator sd with
      | some sos_numerator, some sos_denominator =>
        some ⟨none,
          { d with
            iir_filter_parameters :=
              { d.iir_filter_parameters with
                sos_numerator := sos_numerator
                sos_denominator := sos_denominator
                num_sos := (digital.length : Int)
                is_designed := 1
                group_delay := (digital.map fun s => s.2).sum } }⟩
      | _, _ => none

/-- The type of `gms_filter_design_iir` seen from its caller: it works in place on the C struct
and may report an error (no result at all when its run is undefined). -/
abbrev GmsFilterDesign (α : Type) : Type :=
  LINEAR_IIR_FILTER_DESCRIPTION α → Option (InPlace (LINEAR_IIR_FILTER_DESCRIPTION α))

/-- The function `FilterProvider::filterIIRDesign` (`FilterProvider.cpp`, lines 3-8) with its
callee `gms_filter_design_iir` as the parameter `design`: convert to the C struct, call the
design on it as a statement, so that whatever the design reports is dropped, and return the
struct converted back. `uninit` is the uninitialised local of
`IIRFilterParameters::to_cstruct`. No path of the function ends in a failure. -/
def FilterProvider.filterIIRDesignWith {α : Type} (design : GmsFilterDesign α)
    (uninit : IIR_FILTER_PARAMETERS α) (linearIIRFilterDescription : LinearIIRFilterDescription α) :
    Outcome FilterError (LinearIIRFilterDescription α) :=
  match LinearIIRFilterDescription.to_cstruct uninit linearIIRFilterDescription with
  | none => Outcome.undefined
  | some defStruct =>
    match design defStruct with
    | none => Outcome.undefined
    | some ⟨_, designed⟩ =>
      match LinearIIRFilterDescription.from_cstruct designed with
      | none => Outcome.undefined
      | some out => Outcome.value out

/-- The function `FilterProvider::filterIIRDesign` (`FilterProvider.cpp`, lines 3-8) over the
design modelled from the specification. -/
def FilterProvider.filterIIRDesign {α : Type} [LinearOrderedField α] (num : DesignNumerics α)
    (uninit : IIR_FILTER_PARAMETERS α) (linearIIRFilterDescription : LinearIIRFilterDescription α) :
    Outcome FilterError (LinearIIRFilterDescription α) :=
  FilterProvider.filterIIRDesignWith (gms_filter_design_iir num) uninit linearIIRFilterDescription

/-! ### Apply -/

/-- The signature of `filter_apply` as `cFilterApply` calls it (`FilterProvider.cpp`,
line 51): data, its size, index offset, index increment, taper, zero phase, the two
coefficient arrays and the number of sections; the result is the data after the call. -/
abbrev FilterApply (α : Type) : Type :=
  List α → Int → Int → Int → Int → Int → List α → List α → Int → List α

/-- Modelled from the spec: `gms_filter_apply` (not in the sources), section 4.6: fails with
`UndesignedFilter` when the parameters are not designed and with `InvalidStride` when the
index increment is zero, in both cases before the buffer is touched (section 7); otherwise
the sections are run over the buffer by `filter_apply`. -/
def gms_filter_apply {α : Type} (filter_apply : FilterApply α) (data : List α)
    (num_data index_offset index_inc : Int) (d : LINEAR_IIR_FILTER_DESCRIPTION α) :
    InPlace (List α) :=
  if d.iir_filter_parameters.is_designed = 0 then ⟨some FilterError.UndesignedFilter, data⟩
  else if index_inc = 0 then ⟨some FilterError.InvalidStride, data⟩
  else
    ⟨none, filter_apply data num_data index_offset index_inc d.taper d.zero_phase
      d.iir_filter_parameters.sos_numerator d.iir_filter_parameters.sos_denominator
      d.iir_filter_parameters.num_sos⟩

/-- The type of `gms_filter_apply` seen from its caller (`FilterProvider.cpp`, line 40): data,
its size, index offset, index increment and the C struct; it works in place on the data and
may report an error. -/
abbrev GmsFilterApply (α : Type) : Type :=
  List α → Int → Int → Int → LINEAR_IIR_FILTER_DESCRIPTION α → InPlace (List α)

/-- The function `cFilterIIRApply` (`FilterProvider.cpp`, lines 37-41) with its callee
`gms_filter_apply` as the parameter `apply`: convert the description to the C struct and call
`apply` on the caller's buffer as a statement. The function is `void`: whatever `apply`
reports is dropped, and what the caller has afterwards is the buffer as `apply` left it. No
path of the function ends in a failure. -/
def cFilterIIRApply {α : Type} (apply : GmsFilterApply α) (uninit : IIR_FILTER_PARAMETERS α)
    (linearIIRFilterDescription : LinearIIRFilterDescription α) (data : List α)
    (sizeOfData indexOffset indexInc : Int) : Outcome FilterError (List α) :=
  match LinearIIRFilterDescription.to_cstruct uninit linearIIRFilterDescription with
  | none => Outcome.undefined
  | some defStruct => Outcome.value (apply data sizeOfData indexOffset indexInc defStruct).state

/-- A numerics instance for evaluation: every formula returns zero coefficients. -/
def zeroNumerics : DesignNumerics ℚ where
  tangent_warp := fun f _ => f
  lp_to_lp := fun _ _ => ⟨0, 0, 0, 0, 0, 0⟩
  lp_to_hp := fun _ _ => ⟨0, 0, 0, 0, 0, 0⟩
  lp_to_bp := fun _ _ _ => (⟨0, 0, 0, 0, 0, 0⟩, ⟨0, 0, 0, 0, 0, 0⟩)
  lp_to_br := fun _ _ _ => (⟨0, 0, 0, 0, 0, 0⟩, ⟨0, 0, 0, 0, 0, 0⟩)
  bilinear := fun _ s => (s, 0)

/-- Every access of `to_cstruct` on `p` stays in range when the arrays have capacity `cap`:
`numberOfSos * 3` is representable and exceeds neither the capacity nor the length of any of
the three vectors. -/
def IIRFilterParameters.inRange {α : Type} (p : IIRFilterParameters α) (cap : Nat) : Prop :=
  INT_MIN ≤ p.numberOfSos * 3 ∧ p.numberOfSos * 3 ≤ INT_MAX ∧ p.numberOfSos * 3 ≤ cap
    ∧ p.numberOfSos * 3 ≤ p.sosNumerator.length ∧ p.numberOfSos * 3 ≤ p.sosDenominator.length
    ∧ p.numberOfSos * 3 ≤ p.sosCoefficients.length

instance {α : Type} (p : IIRFilterParameters α) (cap : Nat) : Decidable (p.inRange cap) := by
  unfold IIRFilterParameters.inRange
  infer_instance

/-! ## Helper lemmas -/

theorem int_mul_eq_some {a b : Int} (h1 : INT_MIN ≤ a * b) (h2 : a * b ≤ INT_MAX) :
    int_mul a b = some (a * b) := by
  simp [int_mul, h1, h2]

theorem int_mul_some_iff {a b s : Int} :
    int_mul a b = some s ↔ s = a * b ∧ INT_MIN ≤ a * b ∧ a * b ≤ INT_MAX := by
  unfold int_mul
  split_ifs with h
  · constructor
    · intro hs
      exact ⟨(Option.some.inj hs).symm, h.1, h.2⟩
    · rintro ⟨rfl, _, _⟩
      rfl
  · constructor
    · intro hs
      cases hs
    · rintro ⟨_, h1, h2⟩
      exact absurd ⟨h1, h2⟩ h

theorem vector_of_range_some_iff {α : Type} {arr v : List α} {size : Int} :
    vector_of_range arr size = some v ↔
      0 ≤ size ∧ size.toNat ≤ arr.length ∧ v = arr.take size.toNat := by
  unfold vector_of_range
  split_ifs with h
  · constructor
    · intro hs
      exact ⟨h.1, h.2, (Option.some.inj hs).symm⟩
    · rintro ⟨_, _, rfl⟩
      rfl
  · constructor
    · intro hs
      cases hs
    · rintro ⟨h1, h2, _⟩
      exact absurd ⟨h1, h2⟩ h

/-- Overwriting position `n` of "the first `n` of `a`, then `b` from `n` on" with `a[n]`
gives the first `n + 1` of `a`, then `b` from `n + 1` on. -/
theorem set_take_append_drop {α : Type} (a b : List α) (n : Nat) (v : α)
    (ha : a[n]? = some v) (hb : n < b.length) :
    (a.take n ++ b.drop n).set n v = a.take (n + 1) ++ b.drop (n + 1) := by
  have hlt : n < a.length := by
    rcases List.getElem?_eq_some.mp ha with ⟨h, _⟩
    exact h
  have htake : (a.take n).length = n := by
    simp [List.length_take, Nat.min_eq_left (Nat.le_of_lt hlt)]
  have hdrop : b.drop n = b[n] :: b.drop (n + 1) := by
    simp
  rw [hdrop, List.take_succ, ha]
  simp only [Option.toList, List.append_assoc, List.singleton_append]
  have h : (a.take n ++ b[n] :: b.drop (n + 1)).set n v
      = a.take n ++ (b[n] :: b.drop (n + 1)).set (n - (a.take n).length) v :=
    List.set_append_right n v (by rw [htake])
  rw [h, htake, Nat.sub_self, List.set_cons_zero]

/-- The copy loop of `to_cstruct` run for `n` rounds, all of them in range: each array holds
the first `n` entries of its vector and keeps what it held from `n` on. -/
theorem to_cstruct_loop {α : Type} (ifp : IIRFilterParameters α) (s : IIR_FILTER_PARAMETERS α)
    (n : Nat) (h1 : n ≤ ifp.sosNumerator.length) (h2 : n ≤ ifp.sosDenominator.length)
    (h3 : n ≤ ifp.sosCoefficients.length) (h4 : n ≤ s.sos_numerator.length)
    (h5 : n ≤ s.sos_denominator.length) (h6 : n ≤ s.sos_coefficients.length) :
    (List.range n).foldlM (to_cstruct.body ifp) s =
      some
        { s with
          sos_numerator := ifp.sosNumerator.take n ++ s.sos_numerator.drop n
          sos_denominator := ifp.sosDenominator.take n ++ s.sos_denominator.drop n
          sos_coefficients := ifp.sosCoefficients.take n ++ s.sos_coefficients.drop n } := by
  induction n with
  | zero => simp
  | succ k ih =>
    have e1 : ifp.sosNumerator[k]? = some (ifp.sosNumerator.get ⟨k, by omega⟩) := by
      simp [List.getElem?_eq_getElem]
    have e2 : ifp.sosDenominator[k]? = some (ifp.sosDenominator.get ⟨k, by omega⟩) := by
      simp [List.getElem?_eq_getElem]
    have e3 : ifp.sosCoefficients[k]? = some (ifp.sosCoefficients.get ⟨k, by omega⟩) := by
      simp [List.getElem?_eq_getElem]
    rw [List.range_succ, List.foldlM_append,
      ih (by omega) (by omega) (by omega) (by omega) (by omega) (by omega)]
    have l1 : k < (ifp.sosNumerator.take k ++ s.sos_numerator.drop k).length := by
      simp [List.length_append, List.length_take, List.length_drop]; omega
    have l2 : k < (ifp.sosDenominator.take k ++ s.sos_denominator.drop k).length := by
      simp [List.length_append, List.length_take, List.length_drop]; omega
    have l3 : k < (ifp.sosCoefficients.take k ++ s.sos_coefficients.drop k).length := by
      simp [List.length_append, List.length_take, List.length_drop]; omega
    simp only [Option.some_bind, Option.bind_eq_bind, List.foldlM_cons, List.foldlM_nil,
      to_cstruct.body, e1, e2, e3, l1, l2, l3, and_self, if_true, Option.pure_def, Option.bind_some]
    rw [set_take_append_drop _ _ _ _ e1 (by omega), set_take_append_drop _ _ _ _ e2 (by omega),
      set_take_append_drop _ _ _ _ e3 (by omega)]

/-- What `to_cstruct` returns when all its accesses are in range. -/
theorem to_cstruct_of_inRange {α : Type} (uninit : IIR_FILTER_PARAMETERS α)
    (p : IIRFilterParameters α) (cap : Nat) (hu : uninit.hasCapacity cap) (hp : p.inRange cap) :
    IIRFilterParameters.to_cstruct uninit p =
      some
        { sos_numerator :=
            p.sosNumerator.take (p.numberOfSos * 3).toNat
              ++ uninit.sos_numerator.drop (p.numberOfSos * 3).toNat
          sos_denominator :=
            p.sosDenominator.take (p.numberOfSos * 3).toNat
              ++ uninit.sos_denominator.drop (p.numberOfSos * 3).toNat
          sos_coefficients :=
            p.sosCoefficients.take (p.numberOfSos * 3).toNat
              ++ uninit.sos_coefficients.drop (p.numberOfSos * 3).toNat
          is_designed := int_of_bool p.isDesigned
          num_sos := p.numberOfSos
          group_delay := p.groupDelay } := by
  obtain ⟨u1, u2, u3⟩ := hu
  obtain ⟨p1, p2, p3, p4, p5, p6⟩ := hp
  unfold IIRFilterParameters.to_cstruct
  rw [int_mul_eq_some p1 p2]
  simp only []
  rw [to_cstruct_loop]
  all_goals first
    | omega
    | (dsimp only; omega)

/-- One round of the copy loop keeps the length of every array. -/
theorem to_cstruct_body_lengths {α : Type} (ifp : IIRFilterParameters α)
    (s t : IIR_FILTER_PARAMETERS α) (i : Nat) (h : to_cstruct.body ifp s i = some t) :
    t.sos_numerator.length = s.sos_numerator.length
      ∧ t.sos_denominator.length = s.sos_denominator.length
      ∧ t.sos_coefficients.length = s.sos_coefficients.length := by
  unfold to_cstruct.body at h
  split at h
  · split_ifs at h
    cases h
    simp
  · cases h

/-- The copy loop keeps the length of every array. -/
theorem to_cstruct_loop_lengths {α : Type} (ifp : IIRFilterParameters α) (n : Nat) :
    ∀ s t : IIR_FILTER_PARAMETERS α, (List.range n).foldlM (to_cstruct.body ifp) s = some t →
      t.sos_numerator.length = s.sos_numerator.length
        ∧ t.sos_denominator.length = s.sos_denominator.length
        ∧ t.sos_coefficients.length = s.sos_coefficients.length := by
  induction n with
  | zero =>
    intro s t h
    simp only [List.range_zero, List.foldlM_nil, Option.pure_def, Option.some.injEq] at h
    subst h
    exact ⟨rfl, rfl, rfl⟩
  | succ k ih =>
    intro s t h
    rw [List.range_succ, List.foldlM_append] at h
    cases hk : (List.range k).foldlM (to_cstruct.body ifp) s with
    | none => simp [hk] at h
    | some u =>
      simp only [hk, Option.bind_eq_bind, Option.some_bind, List.foldlM_cons, List.foldlM_nil,
        Option.pure_def, Option.bind_some] at h
      obtain ⟨a1, a2, a3⟩ := ih s u hk
      obtain ⟨b1, b2, b3⟩ := to_cstruct_body_lengths ifp u t k h
      exact ⟨b1.trans a1, b2.trans a2, b3.trans a3⟩

/-- A round of the copy loop at an index that is past the end of a vector or of an array has
no result. -/
theorem to_cstruct_body_out_of_range {α : Type} (ifp : IIRFilterParameters α)
    (s : IIR_FILTER_PARAMETERS α) (i : Nat)
    (h : ifp.sosNumerator.length ≤ i ∨ ifp.sosDenominator.length ≤ i
      ∨ ifp.sosCoefficients.length ≤ i ∨ s.sos_numerator.length ≤ i
      ∨ s.sos_denominator.length ≤ i ∨ s.sos_coefficients.length ≤ i) :
    to_cstruct.body ifp s i = none := by
  unfold to_cstruct.body
  split
  · rename_i n d c e1 e2 e3
    have g1 := (List.getElem?_eq_some.mp e1).1
    have g2 := (List.getElem?_eq_some.mp e2).1
    have g3 := (List.getElem?_eq_some.mp e3).1
    rw [if_neg]
    omega
  · rfl

/-- The copy loop has no result as soon as one of its rounds is out of range. -/
theorem to_cstruct_loop_out_of_range {α : Type} (ifp : IIRFilterParameters α) (n : Nat) :
    ∀ (s : IIR_FILTER_PARAMETERS α) (i : Nat), i < n →
      (ifp.sosNumerator.length ≤ i ∨ ifp.sosDenominator.length ≤ i
        ∨ ifp.sosCoefficients.length ≤ i ∨ s.sos_numerator.length ≤ i
        ∨ s.sos_denominator.length ≤ i ∨ s.sos_coefficients.length ≤ i) →
      (List.range n).foldlM (to_cstruct.body ifp) s = none := by
  induction n with
  | zero =>
    intro s i hi
    omega
  | succ k ih =>
    intro s i hi h
    rw [List.range_succ, List.foldlM_append]
    cases hk : (List.range k).foldlM (to_cstruct.body ifp) s with
    | none => rfl
    | some u =>
      simp only [Option.bind_eq_bind, Option.some_bind, List.foldlM_cons, List.foldlM_nil,
        Option.pure_def, Option.bind_some]
      by_cases hik : i < k
      · rw [ih s i hik h] at hk
        cases hk
      · have hieq : i = k := by omega
        subst hieq
        obtain ⟨a1, a2, a3⟩ := to_cstruct_loop_lengths ifp i s u hk
        apply to_cstruct_body_out_of_range
        omega

/-- The function `to_cstruct` has a result exactly when every one of its accesses is in
range. -/
theorem to_cstruct_isSome_iff {α : Type} (uninit : IIR_FILTER_PARAMETERS α)
    (p : IIRFilterParameters α) (cap : Nat) (hu : uninit.hasCapacity cap) :
    (IIRFilterParameters.to_cstruct uninit p).isSome = true ↔ p.inRange cap := by
  constructor
  · intro h
    by_contra hnot
    have hnone : IIRFilterParameters.to_cstruct uninit p = none := by
      unfold IIRFilterParameters.to_cstruct
      cases hm : int_mul p.numberOfSos 3 with
      | none => rfl
      | some size =>
        obtain ⟨rfl, hmin, hmax⟩ := int_mul_some_iff.mp hm
        obtain ⟨u1, u2, u3⟩ := hu
        unfold IIRFilterParameters.inRange at hnot
        simp only []
        apply to_cstruct_loop_out_of_range p (p.numberOfSos * 3).toNat _
          (min (min p.sosNumerator.length p.sosDenominator.length)
            (min p.sosCoefficients.length cap))
        · omega
        · dsimp only
          omega
    rw [hnone] at h
    cases h
  · intro h
    rw [to_cstruct_of_inRange uninit p cap hu h]
    rfl

/-- What `from_cstruct` returns when `0 ≤ num_sos * 3 ≤ capacity`. -/
theorem from_cstruct_of_le {α : Type} (c : IIR_FILTER_PARAMETERS α) (cap : Nat)
    (hc : c.hasCapacity cap) (h0 : 0 ≤ c.num_sos * 3) (h1 : c.num_sos * 3 ≤ cap)
    (hcap : (cap : Int) ≤ INT_MAX) :
    IIRFilterParameters.from_cstruct c =
      some
        { sosNumerator := c.sos_numerator.take (c.num_sos * 3).toNat
          sosDenominator := c.sos_denominator.take (c.num_sos * 3).toNat
          sosCoefficients := c.sos_coefficients.take (c.num_sos * 3).toNat
          isDesigned := bool_of_int c.is_designed
          numberOfSos := c.num_sos
          groupDelay := c.group_delay } := by
  obtain ⟨c1, c2, c3⟩ := hc
  have hmin : INT_MIN ≤ c.num_sos * 3 := le_trans (by decide) h0
  unfold IIRFilterParameters.from_cstruct
  rw [int_mul_eq_some hmin (le_trans h1 hcap)]
  have r1 : (c.num_sos * 3).toNat ≤ c.sos_numerator.length := by omega
  have r2 : (c.num_sos * 3).toNat ≤ c.sos_denominator.length := by omega
  have r3 : (c.num_sos * 3).toNat ≤ c.sos_coefficients.length := by omega
  simp only [vector_of_range_some_iff.mpr ⟨h0, r1, rfl⟩,
    vector_of_range_some_iff.mpr ⟨h0, r2, rfl⟩, vector_of_range_some_iff.mpr ⟨h0, r3, rfl⟩]

/-- What `from_cstruct` returns when `0 ≤ num_sos * 3`, within `int` and within the
capacity. -/
theorem from_cstruct_of_bounds {α : Type} (c : IIR_FILTER_PARAMETERS α) (cap : Nat)
    (hc : c.hasCapacity cap) (h0 : 0 ≤ c.num_sos * 3) (h1 : c.num_sos * 3 ≤ cap)
    (hmax : c.num_sos * 3 ≤ INT_MAX) :
    IIRFilterParameters.from_cstruct c =
      some
        { sosNumerator := c.sos_numerator.take (c.num_sos * 3).toNat
          sosDenominator := c.sos_denominator.take (c.num_sos * 3).toNat
          sosCoefficients := c.sos_coefficients.take (c.num_sos * 3).toNat
          isDesigned := bool_of_int c.is_designed
          numberOfSos := c.num_sos
          groupDelay := c.group_delay } := by
  obtain ⟨c1, c2, c3⟩ := hc
  have hmin : INT_MIN ≤ c.num_sos * 3 := le_trans (by decide) h0
  unfold IIRFilterParameters.from_cstruct
  rw [int_mul_eq_some hmin hmax]
  have r1 : (c.num_sos * 3).toNat ≤ c.sos_numerator.length := by omega
  have r2 : (c.num_sos * 3).toNat ≤ c.sos_denominator.length := by omega
  have r3 : (c.num_sos * 3).toNat ≤ c.sos_coefficients.length := by omega
  simp only [vector_of_range_some_iff.mpr ⟨h0, r1, rfl⟩,
    vector_of_range_some_iff.mpr ⟨h0, r2, rfl⟩, vector_of_range_some_iff.mpr ⟨h0, r3, rfl⟩]

/-- Whatever `from_cstruct` returns has three vectors of `num_sos * 3` entries each, taken
from the front of the arrays. -/
theorem from_cstruct_some {α : Type} (c : IIR_FILTER_PARAMETERS α) (p : IIRFilterParameters α)
    (h : IIRFilterParameters.from_cstruct c = some p) :
    0 ≤ c.num_sos * 3 ∧ c.num_sos * 3 ≤ INT_MAX
      ∧ (c.num_sos * 3).toNat ≤ c.sos_numerator.length
      ∧ (c.num_sos * 3).toNat ≤ c.sos_denominator.length
      ∧ (c.num_sos * 3).toNat ≤ c.sos_coefficients.length
      ∧ p =
        { sosNumerator := c.sos_numerator.take (c.num_sos * 3).toNat
          sosDenominator := c.sos_denominator.take (c.num_sos * 3).toNat
          sosCoefficients := c.sos_coefficients.take (c.num_sos * 3).toNat
          isDesigned := bool_of_int c.is_designed
          numberOfSos := c.num_sos
          groupDelay := c.group_delay } := by
  unfold IIRFilterParameters.from_cstruct at h
  cases hm : int_mul c.num_sos 3 with
  | none => simp [hm] at h
  | some size =>
    obtain ⟨rfl, _, hmax⟩ := int_mul_some_iff.mp hm
    rw [hm] at h
    cases e1 : vector_of_range c.sos_numerator (c.num_sos * 3) with
    | none => simp [e1] at h
    | some v1 =>
      cases e2 : vector_of_range c.sos_denominator (c.num_sos * 3) with
      | none => simp [e1, e2] at h
      | some v2 =>
        cases e3 : vector_of_range c.sos_coefficients (c.num_sos * 3) with
        | none => simp [e1, e2, e3] at h
        | some v3 =>
          obtain ⟨g0, g1, rfl⟩ := vector_of_range_some_iff.mp e1
          obtain ⟨_, g2, rfl⟩ := vector_of_range_some_iff.mp e2
          obtain ⟨_, g3, rfl⟩ := vector_of_range_some_iff.mp e3
          simp only [e1, e2, e3, Option.some.injEq] at h
          exact ⟨g0, hmax, g1, g2, g3, h.symm⟩

/-! ## The claims on `IIRFilterParameters.cpp` -/

/-- C1 (the code at the failing input): with `numberOfSos = 1` the validating `build` is
given a numerator and a coefficient vector of length 3 and a denominator of length 2. The
denominator's length differs from `numberOfSos * 3`, yet no `invalid_argument` is thrown: the
call returns an instance holding the short denominator. -/
theorem C1_build_val_accepts_short_denominator :
    IIRFilterParameters.build_val [(1 : ℚ), 2, 3] [4, 5] [6, 7, 8] true 1 0 =
      Outcome.value
        { sosNumerator := [1, 2, 3], sosDenominator := [4, 5], sosCoefficients := [6, 7, 8],
          isDesigned := true, numberOfSos := 1, groupDelay := 0 } := by
  decide

/-- C2 as stated fails: the `build` overload on vectors, given empty vectors and
`numberOfSos = 1`, returns an instance whose numerator and denominator do not have length
`3 * numberOfSos`. -/
theorem C2_counterexample :
    ¬ (((IIRFilterParameters.build ([] : List ℚ) [] [] false 1 0).sosNumerator.length : Int)
          = 3 * (IIRFilterParameters.build ([] : List ℚ) [] [] false 1 0).numberOfSos
        ∧ ((IIRFilterParameters.build ([] : List ℚ) [] [] false 1 0).sosDenominator.length : Int)
          = 3 * (IIRFilterParameters.build ([] : List ℚ) [] [] false 1 0).numberOfSos) := by
  decide

/-- C2, amended: (1) every value `from_cstruct` returns for a struct with `num_sos ≥ 0` has
three vectors of length exactly `3 * numberOfSos`, and it does return one when `3 * num_sos`
is within the capacity of the arrays (a capacity that is itself an `int`); (2) the `build`
overload on vectors stores the vectors as given, so its result has numerator and denominator
of length `3 * numberOfSos` exactly when the caller's vectors have; (3) whenever the
validating `build` returns a value with `numberOfSos ≥ 0`, its numerator has length
`3 * numberOfSos`. -/
theorem C2_lengths_amended {α : Type} (c : IIR_FILTER_PARAMETERS α) (h0 : 0 ≤ c.num_sos) :
    (∀ p, IIRFilterParameters.from_cstruct c = some p →
        (p.sosNumerator.length : Int) = 3 * p.numberOfSos
          ∧ (p.sosDenominator.length : Int) = 3 * p.numberOfSos
          ∧ (p.sosCoefficients.length : Int) = 3 * p.numberOfSos)
      ∧ (∀ cap : Nat, c.hasCapacity cap → (cap : Int) ≤ INT_MAX → 3 * c.num_sos ≤ cap →
          ∃ p, IIRFilterParameters.from_cstruct c = some p)
      ∧ (∀ (n d k : List α) (b : Bool) (m : Int) (g : α),
          (IIRFilterParameters.build n d k b m g).sosNumerator = n
            ∧ (IIRFilterParameters.build n d k b m g).sosDenominator = d
            ∧ (IIRFilterParameters.build n d k b m g).numberOfSos = m)
      ∧ (∀ (n d k : List α) (b : Bool) (m : Int) (g : α) (p : IIRFilterParameters α),
          IIRFilterParameters.build_val n d k b m g = Outcome.value p → 0 ≤ m →
            (p.sosNumerator.length : Int) = 3 * p.numberOfSos) := by
  refine ⟨?_, ?_, ?_, ?_⟩
  · intro p hp
    obtain ⟨g0, -, g1, g2, g3, rfl⟩ := from_cstruct_some c p hp
    refine ⟨?_, ?_, ?_⟩ <;>
      simp only [List.length_take] <;> omega
  · intro cap hc hcap h1
    exact ⟨_, from_cstruct_of_le c cap hc (by omega) (by omega) hcap⟩
  · intro n d k b m g
    exact ⟨rfl, rfl, rfl⟩
  · intro n d k b m g p h hm
    unfold IIRFilterParameters.build_val at h
    cases hs : int_mul m 3 with
    | none => simp [hs] at h
    | some size =>
      obtain ⟨rfl, _, hmax⟩ := int_mul_some_iff.mp hs
      rw [hs] at h
      by_cases hmis : build_val.sizeMismatch (m * 3) n.length d.length k.length = true
      · simp [hmis] at h
      · simp only [hmis, if_false, Outcome.value.injEq, Bool.false_eq_true] at h
        subst h
        simp only [build_val.sizeMismatch, Bool.or_eq_true, bne_iff_ne, ne_eq, not_or,
          Decidable.not_not, Bool.and_eq_true, not_and] at hmis
        have hsz := hmis.1
        unfold size_t_of_int at hsz
        have hmax' : m * 3 ≤ 2147483647 := hmax
        have hmod : (m * 3) % 4294967296 = m * 3 :=
          Int.emod_eq_of_lt (by omega) (by omega)
        rw [hmod] at hsz
        show (n.length : Int) = 3 * m
        omega

/-- Witness for C2 as amended: a struct of capacity 4 with one section, on which
`from_cstruct` returns the three vectors of length 3. -/
theorem C2_lengths_amended_witness :
    IIRFilterParameters.from_cstruct
          (⟨[1, 2, 3, 0], [4, 5, 6, 0], [7, 8, 9, 0], 1, 1, 5⟩ : IIR_FILTER_PARAMETERS ℚ)
        = some ⟨[1, 2, 3], [4, 5, 6], [7, 8, 9], true, 1, 5⟩
      ∧ (([1, 2, 3] : List ℚ).length : Int) = 3 * 1 :=
  ⟨by decide,
    ((C2_lengths_amended
      (⟨[1, 2, 3, 0], [4, 5, 6, 0], [7, 8, 9, 0], 1, 1, 5⟩ : IIR_FILTER_PARAMETERS ℚ)
      (by decide)).1 ⟨[1, 2, 3], [4, 5, 6], [7, 8, 9], true, 1, 5⟩ (by decide)).1⟩

/-- C8 (the code at the failing input): the validating `build` accepts `numberOfSos = 1` with
a denominator of length 2; on the instance it returns, `to_cstruct` reads index 2 of
`sosDenominator`, which is past its end, so the out-of-range branch is reached, whatever the
local struct held on entry. -/
theorem C8_to_cstruct_reads_past_accepted_vector :
    IIRFilterParameters.build_val [(1 : ℚ), 2, 3] [4, 5] [6, 7, 8] true 1 0
        = Outcome.value ⟨[1, 2, 3], [4, 5], [6, 7, 8], true, 1, 0⟩
      ∧ (2 : Int) < (⟨[1, 2, 3], [4, 5], [6, 7, 8], true, 1, 0⟩ : IIRFilterParameters ℚ).numberOfSos * 3
      ∧ (⟨[1, 2, 3], [4, 5], [6, 7, 8], true, 1, 0⟩ : IIRFilterParameters ℚ).sosDenominator[2]? = none
      ∧ ∀ uninit : IIR_FILTER_PARAMETERS ℚ,
          IIRFilterParameters.to_cstruct uninit ⟨[1, 2, 3], [4, 5], [6, 7, 8], true, 1, 0⟩ = none := by
  refine ⟨by decide, by decide, by decide, ?_⟩
  intro uninit
  have hm : int_mul 1 3 = some 3 := by decide
  have hr : List.range (3 : Int).toNat = [0, 1, 2] := by decide
  have hb : ∀ s : IIR_FILTER_PARAMETERS ℚ,
      to_cstruct.body (⟨[1, 2, 3], [4, 5], [6, 7, 8], true, 1, 0⟩ : IIRFilterParameters ℚ) s 2
        = none := by
    intro s
    simp [to_cstruct.body]
  unfold IIRFilterParameters.to_cstruct
  simp only [hm, hr, List.foldlM_cons, List.foldlM_nil, Option.bind_eq_bind]
  cases to_cstruct.body (⟨[1, 2, 3], [4, 5], [6, 7, 8], true, 1, 0⟩ : IIRFilterParameters ℚ)
      { uninit with group_delay := 0, is_designed := int_of_bool true, num_sos := 1 } 0 with
  | none => rfl
  | some s1 =>
    simp only [Option.some_bind]
    cases to_cstruct.body (⟨[1, 2, 3], [4, 5], [6, 7, 8], true, 1, 0⟩ : IIRFilterParameters ℚ)
        s1 1 with
    | none => rfl
    | some s2 =>
      simp only [Option.some_bind, hb]
      rfl

/-- C9: round trip. For parameters with `numberOfSos ≥ 0`, all three vectors of length exactly
`3 * numberOfSos`, and `3 * numberOfSos` within the capacity of the arrays (a capacity that is
itself an `int`), `to_cstruct` returns a struct and `from_cstruct` of that struct returns the
parameters unchanged, whatever the uninitialised struct held. -/
theorem C9_round_trip {α : Type} (uninit : IIR_FILTER_PARAMETERS α) (p : IIRFilterParameters α)
    (cap : Nat) (hu : uninit.hasCapacity cap) (hcap : (cap : Int) ≤ INT_MAX)
    (h0 : 0 ≤ p.numberOfSos)
    (hn : (p.sosNumerator.length : Int) = 3 * p.numberOfSos)
    (hd : (p.sosDenominator.length : Int) = 3 * p.numberOfSos)
    (hk : (p.sosCoefficients.length : Int) = 3 * p.numberOfSos)
    (hle : 3 * p.numberOfSos ≤ cap) :
    ∃ c, IIRFilterParameters.to_cstruct uninit p = some c
      ∧ IIRFilterParameters.from_cstruct c = some p := by
  have hmax : (INT_MAX : Int) = 2147483647 := rfl
  have hmin : (INT_MIN : Int) = -2147483648 := rfl
  have hp : p.inRange cap := by
    unfold IIRFilterParameters.inRange
    omega
  refine ⟨_, to_cstruct_of_inRange uninit p cap hu hp, ?_⟩
  obtain ⟨u1, u2, u3⟩ := hu
  have e1 : (p.numberOfSos * 3).toNat = p.sosNumerator.length := by omega
  have e2 : (p.numberOfSos * 3).toNat = p.sosDenominator.length := by omega
  have e3 : (p.numberOfSos * 3).toNat = p.sosCoefficients.length := by omega
  rw [from_cstruct_of_le _ cap ?_ (by dsimp only; omega) (by dsimp only; omega) hcap]
  · dsimp only
    have t1 : (p.sosNumerator.take (p.numberOfSos * 3).toNat
        ++ uninit.sos_numerator.drop (p.numberOfSos * 3).toNat).take (p.numberOfSos * 3).toNat
        = p.sosNumerator := by
      rw [e1, List.take_length, List.take_left]
    have t2 : (p.sosDenominator.take (p.numberOfSos * 3).toNat
        ++ uninit.sos_denominator.drop (p.numberOfSos * 3).toNat).take (p.numberOfSos * 3).toNat
        = p.sosDenominator := by
      rw [e2, List.take_length, List.take_left]
    have t3 : (p.sosCoefficients.take (p.numberOfSos * 3).toNat
        ++ uninit.sos_coefficients.drop (p.numberOfSos * 3).toNat).take (p.numberOfSos * 3).toNat
        = p.sosCoefficients := by
      rw [e3, List.take_length, List.take_left]
    rw [t1, t2, t3]
    cases p with
    | mk a b c d e f => cases d <;> rfl
  · refine ⟨?_, ?_, ?_⟩ <;>
      simp only [List.length_append, List.length_take, List.length_drop] <;> omega

/-- Witness for C9: one section through a struct of capacity 4. -/
theorem C9_round_trip_witness :
    ∃ c, IIRFilterParameters.to_cstruct
          (⟨[0, 0, 0, 0], [0, 0, 0, 0], [0, 0, 0, 0], 7, 7, 7⟩ : IIR_FILTER_PARAMETERS ℚ)
          ⟨[1, 2, 3], [4, 5, 6], [7, 8, 9], true, 1, 1 / 2⟩ = some c
      ∧ IIRFilterParameters.from_cstruct c
          = some ⟨[1, 2, 3], [4, 5, 6], [7, 8, 9], true, 1, 1 / 2⟩ :=
  C9_round_trip ⟨[0, 0, 0, 0], [0, 0, 0, 0], [0, 0, 0, 0], 7, 7, 7⟩
    ⟨[1, 2, 3], [4, 5, 6], [7, 8, 9], true, 1, 1 / 2⟩ 4
    (by decide) (by decide) (by decide) (by decide) (by decide) (by decide) (by decide)

/-- C10: for a struct with `0 ≤ 3 * num_sos ≤ capacity` (a capacity that is itself an `int`),
`from_cstruct` returns an instance whose three vectors are the first `3 * num_sos` entries of
the three arrays, in order, whose `isDesigned` is `is_designed` converted to `bool` (and
converts back to `is_designed` when that is 0 or 1), and whose `numberOfSos` and
`groupDelay` are `num_sos` and `group_delay`; with `num_sos = 0` the vectors are empty. -/
theorem C10_from_cstruct {α : Type} (c : IIR_FILTER_PARAMETERS α) (cap : Nat)
    (hc : c.hasCapacity cap) (hcap : (cap : Int) ≤ INT_MAX)
    (h0 : 0 ≤ 3 * c.num_sos) (h1 : 3 * c.num_sos ≤ cap) :
    ∃ p, IIRFilterParameters.from_cstruct c = some p
      ∧ p.sosNumerator = c.sos_numerator.take (3 * c.num_sos).toNat
      ∧ p.sosDenominator = c.sos_denominator.take (3 * c.num_sos).toNat
      ∧ p.sosCoefficients = c.sos_coefficients.take (3 * c.num_sos).toNat
      ∧ (p.sosNumerator.length : Int) = 3 * c.num_sos
      ∧ (p.sosDenominator.length : Int) = 3 * c.num_sos
      ∧ (p.sosCoefficients.length : Int) = 3 * c.num_sos
      ∧ p.isDesigned = bool_of_int c.is_designed
      ∧ (c.is_designed = 0 ∨ c.is_designed = 1 → int_of_bool p.isDesigned = c.is_designed)
      ∧ p.numberOfSos = c.num_sos
      ∧ p.groupDelay = c.group_delay
      ∧ (c.num_sos = 0 → p.sosNumerator = [] ∧ p.sosDenominator = [] ∧ p.sosCoefficients = []) := by
  have h0' : 0 ≤ c.num_sos * 3 := by omega
  have h1' : c.num_sos * 3 ≤ cap := by omega
  have hcomm : c.num_sos * 3 = 3 * c.num_sos := by omega
  obtain ⟨c1, c2, c3⟩ := id hc
  refine ⟨_, from_cstruct_of_le c cap hc h0' h1' hcap, ?_⟩
  dsimp only
  rw [hcomm]
  refine ⟨rfl, rfl, rfl, ?_, ?_, ?_, rfl, ?_, rfl, rfl, ?_⟩
  · simp only [List.length_take]; omega
  · simp only [List.length_take]; omega
  · simp only [List.length_take]; omega
  · rintro (h | h) <;> simp [h, bool_of_int, int_of_bool]
  · intro hz
    simp [hz]

/-- Witness for C10: a struct of capacity 4 with one section. -/
theorem C10_from_cstruct_witness :
    ∃ p, IIRFilterParameters.from_cstruct
          (⟨[1, 2, 3, 0], [4, 5, 6, 0], [7, 8, 9, 0], 1, 1, 5⟩ : IIR_FILTER_PARAMETERS ℚ) = some p
      ∧ p.sosNumerator = [1, 2, 3, 0].take (3 * (1 : Int)).toNat
      ∧ p.sosDenominator = [4, 5, 6, 0].take (3 * (1 : Int)).toNat
      ∧ p.sosCoefficients = [7, 8, 9, 0].take (3 * (1 : Int)).toNat
      ∧ (p.sosNumerator.length : Int) = 3 * 1
      ∧ (p.sosDenominator.length : Int) = 3 * 1
      ∧ (p.sosCoefficients.length : Int) = 3 * 1
      ∧ p.isDesigned = bool_of_int 1
      ∧ ((1 : Int) = 0 ∨ (1 : Int) = 1 → int_of_bool p.isDesigned = 1)
      ∧ p.numberOfSos = 1
      ∧ p.groupDelay = 5
      ∧ ((1 : Int) = 0 → p.sosNumerator = [] ∧ p.sosDenominator = [] ∧ p.sosCoefficients = []) :=
  C10_from_cstruct ⟨[1, 2, 3, 0], [4, 5, 6, 0], [7, 8, 9, 0], 1, 1, 5⟩ 4
    (by decide) (by decide) (by decide) (by decide)

/-! ## The design and apply entry points: lemmas -/

theorem countP_range_le (m n : Nat) :
    (List.range n).countP (fun k => decide (2 * k + 1 ≤ m)) = min n ((m + 1) / 2) := by
  induction n with
  | zero => simp
  | succ k ih =>
    rw [List.range_succ, List.countP_append, ih]
    by_cases h : 2 * k + 1 ≤ m
    · simp only [List.countP_cons, List.countP_nil, h, decide_True, if_true]
      omega
    · simp only [List.countP_cons, List.countP_nil, h, decide_False]
      simp only [Bool.false_eq_true, if_false]
      omega

/-- The stored pole list of an order `n ≥ 1` has `(n + 1) / 2` entries: one for each conjugate
pair and one for the real pole of an odd order. -/
theorem butterworth_stored_count (order : Int) (h : 1 ≤ order) :
    ∃ poles, butterworth_analog_design order = Except.ok poles
      ∧ poles.length = (order.toNat + 1) / 2 := by
  unfold butterworth_analog_design
  rw [if_neg (by omega)]
  refine ⟨_, rfl, ?_⟩
  rw [List.length_filterMap_eq_countP]
  have hfun : (fun k : Nat =>
      (if 2 * k + 1 < order.toNat then
          some (⟨(2 * (k : ℚ) + order + 1) / (2 * order), PoleType.complex⟩ : AnalogPole)
        else if 2 * k + 1 = order.toNat then
          some ⟨(2 * (k : ℚ) + order + 1) / (2 * order), PoleType.real⟩
        else none).isSome) = fun k => decide (2 * k + 1 ≤ order.toNat) := by
    funext k
    split_ifs with h1 h2
    · simp only [Option.isSome_some]
      exact (decide_eq_true (by omega)).symm
    · simp only [Option.isSome_some]
      exact (decide_eq_true (by omega)).symm
    · simp only [Option.isSome_none]
      exact (decide_eq_false (by omega)).symm
  rw [hfun, countP_range_le]
  omega

/-- Writing into an array keeps its length. -/
theorem writeArray_length {α : Type} {arr coeffs out : List α}
    (h : writeArray arr coeffs = some out) : out.length = arr.length := by
  unfold writeArray at h
  split_ifs at h with hle
  cases h
  simp only [List.length_append, List.length_drop]
  omega

theorem writeArray_of_le {α : Type} (arr coeffs : List α) (h : coeffs.length ≤ arr.length) :
    writeArray arr coeffs = some (coeffs ++ arr.drop coeffs.length) := by
  simp [writeArray, h]

theorem length_flatMap_three {α β : Type} (l : List β) (f : β → List α)
    (hf : ∀ b, (f b).length = 3) : (l.flatMap f).length = 3 * l.length := by
  induction l with
  | nil => simp
  | cons b t ih =>
    simp only [List.flatMap_cons, List.length_append, hf, ih, List.length_cons]
    omega

/-- The description converts to a C struct when the accesses of `to_cstruct` on its
parameters are in range; the struct carries the design inputs and the designed flag, and its
arrays keep their capacity. -/
theorem desc_to_cstruct_of_inRange {α : Type} (uninit : IIR_FILTER_PARAMETERS α)
    (d : LinearIIRFilterDescription α) (cap : Nat) (hu : uninit.hasCapacity cap)
    (hr : d.parameters.inRange cap) :
    ∃ c, LinearIIRFilterDescription.to_cstruct uninit d = some c
      ∧ c.iir_filter_parameters.hasCapacity cap
      ∧ c.iir_filter_parameters.is_designed = int_of_bool d.parameters.isDesigned
      ∧ c.band_type = d.bandType ∧ c.filter_order = d.filterOrder
      ∧ c.cutoff_frequency_low = d.cutoffFrequencyLow
      ∧ c.cutoff_frequency_high = d.cutoffFrequencyHigh
      ∧ c.sample_rate = d.sampleRate := by
  unfold LinearIIRFilterDescription.to_cstruct
  rw [to_cstruct_of_inRange uninit d.parameters cap hu hr]
  refine ⟨_, rfl, ?_, rfl, rfl, rfl, rfl, rfl, rfl⟩
  obtain ⟨u1, u2, u3⟩ := hu
  obtain ⟨p1, p2, p3, p4, p5, p6⟩ := hr
  refine ⟨?_, ?_, ?_⟩ <;>
    simp only [List.length_append, List.length_take, List.length_drop] <;> omega

/-- The design leaves the arrays at their capacity, whether it succeeds or fails. -/
theorem design_state_capacity {α : Type} [LinearOrderedField α] (num : DesignNumerics α)
    (c : LINEAR_IIR_FILTER_DESCRIPTION α) (err : Option FilterError)
    (s : LINEAR_IIR_FILTER_DESCRIPTION α) (cap : Nat)
    (hc : c.iir_filter_parameters.hasCapacity cap)
    (h : gms_filter_design_iir num c = some ⟨err, s⟩) :
    s.iir_filter_parameters.hasCapacity cap := by
  unfold gms_filter_design_iir at h
  cases hb : butterworth_analog_design c.filter_order with
  | error e =>
    simp only [hb, Option.some.injEq, InPlace.mk.injEq] at h
    rw [← h.2]
    exact hc
  | ok poles =>
    simp only [hb] at h
    split_ifs at h with h1 h2
    · simp only [Option.some.injEq, InPlace.mk.injEq] at h
      rw [← h.2]
      exact hc
    · simp only [Option.some.injEq, InPlace.mk.injEq] at h
      rw [← h.2]
      exact hc
    · obtain ⟨c1, c2, c3⟩ := hc
      split at h
      · rename_i sn sd e1 e2
        simp only [Option.some.injEq, InPlace.mk.injEq] at h
        rw [← h.2]
        exact ⟨(writeArray_length e1).trans c1, (writeArray_length e2).trans c2, c3⟩
      · cases h

/-- A design that succeeds leaves the arrays at their capacity. -/
theorem design_success_capacity {α : Type} [LinearOrderedField α] (num : DesignNumerics α)
    (c s : LINEAR_IIR_FILTER_DESCRIPTION α) (cap : Nat)
    (hc : c.iir_filter_parameters.hasCapacity cap)
    (h : gms_filter_design_iir num c = some ⟨none, s⟩) :
    s.iir_filter_parameters.hasCapacity cap := by
  unfold gms_filter_design_iir at h
  cases hb : butterworth_analog_design c.filter_order with
  | error e => simp [hb] at h
  | ok poles =>
    simp only [hb] at h
    split_ifs at h with h1 h2
    · simp at h
    · simp at h
    · obtain ⟨c1, c2, c3⟩ := hc
      split at h
      · rename_i sn sd e1 e2
        simp only [Option.some.injEq, InPlace.mk.injEq, true_and] at h
        subst h
        exact ⟨(writeArray_length e1).trans c1, (writeArray_length e2).trans c2, c3⟩
      · cases h

/-- Whatever description `filterIIRDesign` returns went through `from_cstruct`, so its section
count times three is within the capacity of the arrays and within `int`. -/
theorem filterIIRDesign_value_fits {α : Type} [LinearOrderedField α] (num : DesignNumerics α)
    (uninit : IIR_FILTER_PARAMETERS α) (d r : LinearIIRFilterDescription α) (cap : Nat)
    (hu : uninit.hasCapacity cap) (hr : d.parameters.inRange cap)
    (h : FilterProvider.filterIIRDesign num uninit d = Outcome.value r) :
    r.parameters.numberOfSos * 3 ≤ cap ∧ r.parameters.numberOfSos * 3 ≤ INT_MAX := by
  obtain ⟨c, hc, hcap, -⟩ := desc_to_cstruct_of_inRange uninit d cap hu hr
  unfold FilterProvider.filterIIRDesign FilterProvider.filterIIRDesignWith at h
  simp only [hc] at h
  cases hdes : gms_filter_design_iir num c with
  | none => simp [hdes] at h
  | some res =>
    obtain ⟨err, s⟩ := res
    simp only [hdes] at h
    have hs := design_state_capacity num c err s cap hcap hdes
    unfold LinearIIRFilterDescription.from_cstruct at h
    cases hf : IIRFilterParameters.from_cstruct s.iir_filter_parameters with
    | none => simp [hf] at h
    | some p =>
      simp only [hf, Outcome.value.injEq] at h
      subst h
      obtain ⟨g0, gmax, g1, -, -, rfl⟩ := from_cstruct_some _ _ hf
      obtain ⟨s1, -, -⟩ := hs
      dsimp only
      constructor
      · omega
      · exact gmax

theorem analogSections_length_lowhigh {α : Type} (num : DesignNumerics α)
    (band_type : FILTER_BAND_TYPE) (flw fhw : α) (poles : List AnalogPole)
    (hb : band_type = FILTER_BAND_TYPE.LOWPASS ∨ band_type = FILTER_BAND_TYPE.HIGHPASS) :
    (analogSections num band_type flw fhw poles).length = poles.length := by
  rcases hb with rfl | rfl <;> simp [analogSections]

theorem invalidBand_lowhigh_false {α : Type} [LinearOrderedField α]
    (band_type : FILTER_BAND_TYPE) (fl fh : α)
    (hb : band_type = FILTER_BAND_TYPE.LOWPASS ∨ band_type = FILTER_BAND_TYPE.HIGHPASS)
    (hv : ∀ f ∈ requiredCutoffs band_type fl fh, 0 < f) :
    invalidBand band_type fl fh = false := by
  rcases hb with rfl | rfl
  · have h := hv fh (by simp [requiredCutoffs])
    simp [invalidBand, requiredCutoffs, h]
  · have h := hv fl (by simp [requiredCutoffs])
    simp [invalidBand, requiredCutoffs, h]

theorem invalidSampleRate_lowhigh_false {α : Type} [LinearOrderedField α]
    (band_type : FILTER_BAND_TYPE) (fl fh fs : α)
    (hb : band_type = FILTER_BAND_TYPE.LOWPASS ∨ band_type = FILTER_BAND_TYPE.HIGHPASS)
    (hfs : 0 < fs) (hv : ∀ f ∈ requiredCutoffs band_type fl fh, f < fs / 2) :
    invalidSampleRate band_type fl fh fs = false := by
  rcases hb with rfl | rfl
  · have h := hv fh (by simp [requiredCutoffs])
    simp [invalidSampleRate, requiredCutoffs, h, hfs]
  · have h := hv fl (by simp [requiredCutoffs])
    simp [invalidSampleRate, requiredCutoffs, h, hfs]

/-- The design of a valid LOWPASS or HIGHPASS description of order `n ≥ 1` whose sections fit
the arrays succeeds, sets the flag and leaves `(n + 1) / 2` sections. -/
theorem design_lowhigh_success {α : Type} [LinearOrderedField α] (num : DesignNumerics α)
    (c : LINEAR_IIR_FILTER_DESCRIPTION α) (cap : Nat)
    (hc : c.iir_filter_parameters.hasCapacity cap)
    (hb : c.band_type = FILTER_BAND_TYPE.LOWPASS ∨ c.band_type = FILTER_BAND_TYPE.HIGHPASS)
    (ho : 1 ≤ c.filter_order)
    (hband : invalidBand c.band_type c.cutoff_frequency_low c.cutoff_frequency_high = false)
    (hrate : invalidSampleRate c.band_type c.cutoff_frequency_low c.cutoff_frequency_high
      c.sample_rate = false)
    (hfit : 3 * ((c.filter_order + 1) / 2) ≤ cap) :
    ∃ s, gms_filter_design_iir num c = some ⟨none, s⟩
      ∧ s.iir_filter_parameters.num_sos = (c.filter_order + 1) / 2
      ∧ s.iir_filter_parameters.is_designed = 1
      ∧ s.band_type = c.band_type ∧ s.filter_order = c.filter_order := by
  obtain ⟨poles, hpoles, hlen⟩ := butterworth_stored_count c.filter_order ho
  obtain ⟨c1, c2, c3⟩ := hc
  have hcount : ((poles.length : Nat) : Int) = (c.filter_order + 1) / 2 := by
    rw [hlen]
    omega
  have hsec : ∀ flw fhw : α,
      ((analogSections num c.band_type flw fhw poles).map (num.bilinear c.sample_rate)).length
        = poles.length := by
    intro flw fhw
    rw [List.length_map, analogSections_length_lowhigh num _ _ _ _ hb]
  have hsn : ∀ l : List (SosSection α × α),
      (l.flatMap fun s => [s.1.b0, s.1.b1, s.1.b2]).length = 3 * l.length :=
    fun l => length_flatMap_three l _ (fun _ => rfl)
  have hsd : ∀ l : List (SosSection α × α),
      (l.flatMap fun s => [s.1.a0, s.1.a1, s.1.a2]).length = 3 * l.length :=
    fun l => length_flatMap_three l _ (fun _ => rfl)
  unfold gms_filter_design_iir
  simp only [hpoles, hband, hrate, Bool.false_eq_true, if_false]
  rw [writeArray_of_le, writeArray_of_le]
  · refine ⟨_, rfl, ?_, rfl, rfl, rfl⟩
    dsimp only
    rw [hsec, hcount]
  · rw [hsd, hsec, c2]
    omega
  · rw [hsn, hsec, c1]
    omega

/-- A description whose parameters are in range with `numberOfSos ≥ 0` converts to a C struct,
and that struct converts back to a description with the same designed flag, section count,
band type and order. -/
theorem desc_round_trip {α : Type} (uninit : IIR_FILTER_PARAMETERS α)
    (d : LinearIIRFilterDescription α) (cap : Nat) (hu : uninit.hasCapacity cap)
    (hr : d.parameters.inRange cap) (h0 : 0 ≤ d.parameters.numberOfSos) :
    ∃ c r, LinearIIRFilterDescription.to_cstruct uninit d = some c
      ∧ LinearIIRFilterDescription.from_cstruct c = some r
      ∧ r.parameters.isDesigned = d.parameters.isDesigned
      ∧ r.parameters.numberOfSos = d.parameters.numberOfSos
      ∧ r.bandType = d.bandType ∧ r.filterOrder = d.filterOrder
      ∧ r.cutoffFrequencyLow = d.cutoffFrequencyLow
      ∧ r.cutoffFrequencyHigh = d.cutoffFrequencyHigh
      ∧ r.sampleRate = d.sampleRate := by
  obtain ⟨p1, p2, p3, p4, p5, p6⟩ := id hr
  obtain ⟨c, hc, hcap, hflag, hband, hord, hlow, hhigh, hrate⟩ :=
    desc_to_cstruct_of_inRange uninit d cap hu hr
  have hnum : c.iir_filter_parameters.num_sos = d.parameters.numberOfSos := by
    have hc' := hc
    unfold LinearIIRFilterDescription.to_cstruct at hc'
    rw [to_cstruct_of_inRange uninit d.parameters cap hu hr] at hc'
    simp only [Option.some.injEq] at hc'
    rw [← hc']
  have hfrom := from_cstruct_of_bounds c.iir_filter_parameters cap hcap
    (by rw [hnum]; omega) (by rw [hnum]; omega) (by rw [hnum]; omega)
  have hback : LinearIIRFilterDescription.from_cstruct c =
      some
        { parameters :=
            { sosNumerator :=
                c.iir_filter_parameters.sos_numerator.take
                  (c.iir_filter_parameters.num_sos * 3).toNat
              sosDenominator :=
                c.iir_filter_parameters.sos_denominator.take
                  (c.iir_filter_parameters.num_sos * 3).toNat
              sosCoefficients :=
                c.iir_filter_parameters.sos_coefficients.take
                  (c.iir_filter_parameters.num_sos * 3).toNat
              isDesigned := bool_of_int c.iir_filter_parameters.is_designed
              numberOfSos := c.iir_filter_parameters.num_sos
              groupDelay := c.iir_filter_parameters.group_delay }
          designModel := c.design_model, bandType := c.band_type
          cutoffFrequencyLow := c.cutoff_frequency_low
          cutoffFrequencyHigh := c.cutoff_frequency_high
          filterOrder := c.filter_order, sampleRate := c.sample_rate
          zeroPhase := bool_of_int c.zero_phase, taper := bool_of_int c.taper } := by
    unfold LinearIIRFilterDescription.from_cstruct
    rw [hfrom]
  refine ⟨c, _, hc, hback, ?_, hnum, hband, hord, hlow, hhigh, hrate⟩
  dsimp only
  rw [hflag]
  cases d.parameters.isDesigned <;> rfl

/-- The modelled design fails with `InvalidBand` on a BANDPASS or BANDREJECT struct of order at
least 1 with `fl ≥ fh`, and leaves the struct as it was. -/
theorem design_invalid_band {α : Type} [LinearOrderedField α] (num : DesignNumerics α)
    (c : LINEAR_IIR_FILTER_DESCRIPTION α)
    (hb : c.band_type = FILTER_BAND_TYPE.BANDPASS ∨ c.band_type = FILTER_BAND_TYPE.BANDREJECT)
    (hf : c.cutoff_frequency_low ≥ c.cutoff_frequency_high) (ho : 1 ≤ c.filter_order) :
    gms_filter_design_iir num c = some ⟨some FilterError.InvalidBand, c⟩ := by
  obtain ⟨poles, hpoles, -⟩ := butterworth_stored_count c.filter_order ho
  have hinv : invalidBand c.band_type c.cutoff_frequency_low c.cutoff_frequency_high = true := by
    unfold invalidBand
    rw [Bool.or_eq_true]
    left
    exact decide_eq_true ⟨hb, hf⟩
  unfold gms_filter_design_iir
  simp only [hpoles, hinv, if_true]

/-! ## The claims on `FilterProvider.cpp` -/

/-- C3 as stated fails. (1) A description whose parameters are undesigned but announce one
section over empty vectors makes `to_cstruct` read past the end of a vector, so
`cFilterIIRApply` has no defined outcome. (2) On an undesigned description with empty
parameters the binding does not fail with `UndesignedFilter`, whatever `gms_filter_apply`
does: it is `void` and drops what its callee reports. (3) With the callee modelled from the
specification, which does report `UndesignedFilter`, the binding returns normally with the
buffer as it was. -/
theorem C3_counterexample :
    (∀ (apply : GmsFilterApply ℚ) (uninit : IIR_FILTER_PARAMETERS ℚ) (data : List ℚ)
        (sizeOfData indexOffset indexInc : Int),
        cFilterIIRApply apply uninit
            ⟨IIRFilterParameters.build [] [] [] false 1 0, FILTER_DESIGN_MODEL.BUTTERWORTH,
              FILTER_BAND_TYPE.LOWPASS, 5, 5, 4, 100, false, false⟩
            data sizeOfData indexOffset indexInc
          = Outcome.undefined)
      ∧ (∀ (apply : GmsFilterApply ℚ) (uninit : IIR_FILTER_PARAMETERS ℚ) (data : List ℚ)
        (sizeOfData indexOffset indexInc : Int),
        cFilterIIRApply apply uninit
            ⟨IIRFilterParameters.build [] [] [] false 0 0, FILTER_DESIGN_MODEL.BUTTERWORTH,
              FILTER_BAND_TYPE.LOWPASS, 5, 5, 4, 100, false, false⟩
            data sizeOfData indexOffset indexInc
          ≠ Outcome.failure FilterError.UndesignedFilter)
      ∧ (∀ (filter_apply : FilterApply ℚ) (uninit : IIR_FILTER_PARAMETERS ℚ) (data : List ℚ)
        (sizeOfData indexOffset indexInc : Int),
        cFilterIIRApply (gms_filter_apply filter_apply) uninit
            ⟨IIRFilterParameters.build [] [] [] false 0 0, FILTER_DESIGN_MODEL.BUTTERWORTH,
              FILTER_BAND_TYPE.LOWPASS, 5, 5, 4, 100, false, false⟩
            data sizeOfData indexOffset indexInc
          = Outcome.value data) := by
  have hm1 : int_mul 1 3 = some 3 := by decide
  have hm0 : int_mul 0 3 = some 0 := by decide
  have hr : List.range 3 = [0, 1, 2] := by decide
  have hnone : ∀ uninit : IIR_FILTER_PARAMETERS ℚ, IIRFilterParameters.to_cstruct uninit
      (IIRFilterParameters.build ([] : List ℚ) [] [] false 1 0) = none := by
    intro uninit
    unfold IIRFilterParameters.to_cstruct
    simp [IIRFilterParameters.build, hm1, hr, to_cstruct.body]
  have hsome : ∀ uninit : IIR_FILTER_PARAMETERS ℚ, IIRFilterParameters.to_cstruct uninit
      (IIRFilterParameters.build ([] : List ℚ) [] [] false 0 0)
      = some { uninit with group_delay := 0, is_designed := 0, num_sos := 0 } := by
    intro uninit
    unfold IIRFilterParameters.to_cstruct
    simp [IIRFilterParameters.build, hm0, int_of_bool]
  refine ⟨?_, ?_, ?_⟩
  · intro apply uninit data sizeOfData indexOffset indexInc
    simp [cFilterIIRApply, LinearIIRFilterDescription.to_cstruct, hnone]
  · intro apply uninit data sizeOfData indexOffset indexInc
    simp [cFilterIIRApply, LinearIIRFilterDescription.to_cstruct, hsome]
  · intro filter_apply uninit data sizeOfData indexOffset indexInc
    simp [cFilterIIRApply, LinearIIRFilterDescription.to_cstruct, hsome, gms_filter_apply]

/-- C3, amended: for every buffer, offset and non-zero increment, applying through
`cFilterIIRApply` a description whose parameters have `isDesigned = false`, and on whose
parameters every access of `to_cstruct` is in range, does not fail: the binding hands
`gms_filter_apply` a struct with `is_designed = 0`, drops what it reports and returns
normally; when `gms_filter_apply` answers such a struct with `UndesignedFilter` and leaves the
buffer as it was, every element of the caller's buffer is unchanged. -/
theorem C3_undesigned_amended {α : Type} (apply : GmsFilterApply α)
    (uninit : IIR_FILTER_PARAMETERS α) (cap : Nat) (hu : uninit.hasCapacity cap)
    (d : LinearIIRFilterDescription α) (hd : d.parameters.isDesigned = false)
    (hr : d.parameters.inRange cap) (data : List α) (sizeOfData indexOffset indexInc : Int)
    (_hinc : indexInc ≠ 0)
    (hcallee : ∀ c : LINEAR_IIR_FILTER_DESCRIPTION α, c.iir_filter_parameters.is_designed = 0 →
      apply data sizeOfData indexOffset indexInc c
        = ⟨some FilterError.UndesignedFilter, data⟩) :
    cFilterIIRApply apply uninit d data sizeOfData indexOffset indexInc = Outcome.value data
      ∧ ∃ c, LinearIIRFilterDescription.to_cstruct uninit d = some c
          ∧ c.iir_filter_parameters.is_designed = 0 := by
  obtain ⟨c, hc, -, hflag, -⟩ := desc_to_cstruct_of_inRange uninit d cap hu hr
  have h0 : c.iir_filter_parameters.is_designed = 0 := by
    rw [hflag, hd]
    rfl
  refine ⟨?_, c, hc, h0⟩
  unfold cFilterIIRApply
  simp only [hc, hcallee c h0]

/-- Witness for C3 as amended: an undesigned, empty description applied to four samples with
offset 0 and increment 1, the callee being the one modelled from the specification. -/
theorem C3_undesigned_amended_witness :
    cFilterIIRApply (gms_filter_apply fun data _ _ _ _ _ _ _ _ => data.map (· + 1))
        (⟨[0, 0, 0], [0, 0, 0], [0, 0, 0], 1, 0, 0⟩ : IIR_FILTER_PARAMETERS ℚ)
        ⟨IIRFilterParameters.build [] [] [] false 0 0, FILTER_DESIGN_MODEL.BUTTERWORTH,
          FILTER_BAND_TYPE.LOWPASS, 5, 5, 4, 100, false, false⟩
        [1, 2, 3, 4] 4 0 1
      = Outcome.value [1, 2, 3, 4] :=
  (C3_undesigned_amended _ _ 3 (by decide) _ rfl (by decide) _ _ _ _ (by decide)
    (fun c h0 => by simp [gms_filter_apply, h0])).1

/-- C4 as stated fails at two BANDPASS descriptions with `fl = 10 ≥ fh = 5`, order 4. (1) With
parameters that announce one section over empty vectors, `to_cstruct` reads past the end of a
vector and `filterIIRDesign` has no defined outcome, whatever the design does. (2) With
undesigned empty parameters, `filterIIRDesign` over the design modelled from the
specification does not fail: the design's failure is dropped and the description comes back
as it went in, `isDesigned = false`. -/
theorem C4_counterexample :
    (∀ (design : GmsFilterDesign ℚ) (uninit : IIR_FILTER_PARAMETERS ℚ),
        FilterProvider.filterIIRDesignWith design uninit
            ⟨IIRFilterParameters.build [] [] [] false 1 0, FILTER_DESIGN_MODEL.BUTTERWORTH,
              FILTER_BAND_TYPE.BANDPASS, 10, 5, 4, 100, false, false⟩
          = Outcome.undefined)
      ∧ (∀ (num : DesignNumerics ℚ) (uninit : IIR_FILTER_PARAMETERS ℚ),
        FilterProvider.filterIIRDesign num uninit
            ⟨IIRFilterParameters.build [] [] [] false 0 0, FILTER_DESIGN_MODEL.BUTTERWORTH,
              FILTER_BAND_TYPE.BANDPASS, 10, 5, 4, 100, false, false⟩
          = Outcome.value
            ⟨IIRFilterParameters.build [] [] [] false 0 0, FILTER_DESIGN_MODEL.BUTTERWORTH,
              FILTER_BAND_TYPE.BANDPASS, 10, 5, 4, 100, false, false⟩) := by
  constructor
  · intro design uninit
    have hm : int_mul 1 3 = some 3 := by decide
    have hr : List.range 3 = [0, 1, 2] := by decide
    have hnone : IIRFilterParameters.to_cstruct uninit
        (IIRFilterParameters.build ([] : List ℚ) [] [] false 1 0) = none := by
      unfold IIRFilterParameters.to_cstruct
      simp [IIRFilterParameters.build, hm, hr, to_cstruct.body]
    simp [FilterProvider.filterIIRDesignWith, LinearIIRFilterDescription.to_cstruct, hnone]
  · intro num uninit
    have hm : int_mul 0 3 = some 0 := by decide
    have hsome : IIRFilterParameters.to_cstruct uninit
        (⟨[], [], [], false, 0, 0⟩ : IIRFilterParameters ℚ)
        = some { uninit with group_delay := 0, is_designed := 0, num_sos := 0 } := by
      unfold IIRFilterParameters.to_cstruct
      simp [hm, int_of_bool]
    have hdes := design_invalid_band num
      (⟨FILTER_DESIGN_MODEL.BUTTERWORTH, FILTER_BAND_TYPE.BANDPASS, 10, 5, 4, 100, 0, 0,
        { uninit with group_delay := 0, is_designed := 0, num_sos := 0 }⟩ :
          LINEAR_IIR_FILTER_DESCRIPTION ℚ)
      (Or.inl rfl) (by norm_num) (by norm_num)
    simp [FilterProvider.filterIIRDesign, FilterProvider.filterIIRDesignWith,
      LinearIIRFilterDescription.to_cstruct, hsome, int_of_bool, hdes,
      LinearIIRFilterDescription.from_cstruct, IIRFilterParameters.from_cstruct, hm,
      vector_of_range, bool_of_int, IIRFilterParameters.build]

/-- C4, amended: for every sample rate and order, `filterIIRDesign` called on a BANDPASS or
BANDREJECT description with `fl ≥ fh`, whose parameters have `numberOfSos ≥ 0` and keep every
access of `to_cstruct` in range, does not fail: when `gms_filter_design_iir` fails with
`InvalidBand` on such a struct and leaves it as it was, the binding drops the failure and
returns the description converted back, whose `isDesigned` is the one it had, so it stays
false. -/
theorem C4_invalid_band_amended {α : Type} [LinearOrderedField α] (design : GmsFilterDesign α)
    (uninit : IIR_FILTER_PARAMETERS α) (cap : Nat) (hu : uninit.hasCapacity cap)
    (d : LinearIIRFilterDescription α)
    (hb : d.bandType = FILTER_BAND_TYPE.BANDPASS ∨ d.bandType = FILTER_BAND_TYPE.BANDREJECT)
    (hf : d.cutoffFrequencyLow ≥ d.cutoffFrequencyHigh)
    (hr : d.parameters.inRange cap) (h0 : 0 ≤ d.parameters.numberOfSos)
    (hcallee : ∀ c : LINEAR_IIR_FILTER_DESCRIPTION α,
      (c.band_type = FILTER_BAND_TYPE.BANDPASS ∨ c.band_type = FILTER_BAND_TYPE.BANDREJECT) →
      c.cutoff_frequency_low ≥ c.cutoff_frequency_high → c.filter_order = d.filterOrder →
      design c = some ⟨some FilterError.InvalidBand, c⟩) :
    ∃ r, FilterProvider.filterIIRDesignWith design uninit d = Outcome.value r
      ∧ r.parameters.isDesigned = d.parameters.isDesigned
      ∧ (d.parameters.isDesigned = false → r.parameters.isDesigned = false)
      ∧ r.bandType = d.bandType ∧ r.filterOrder = d.filterOrder := by
  obtain ⟨c, hc, -, -, hband, hord, hlow, hhigh, -⟩ :=
    desc_to_cstruct_of_inRange uninit d cap hu hr
  obtain ⟨c', r, hc', hfrom, hflag, -, hrband, hrord, -⟩ := desc_round_trip uninit d cap hu hr h0
  have hcc : c' = c := Option.some.inj (hc'.symm.trans hc)
  subst hcc
  have hdes := hcallee c' (by rw [hband]; exact hb) (by rw [hlow, hhigh]; exact hf) hord
  refine ⟨r, ?_, hflag, fun h => hflag.trans h, hrband, hrord⟩
  unfold FilterProvider.filterIIRDesignWith
  simp only [hc, hdes, hfrom]

/-- Witness for C4 as amended: BANDPASS with `fl = 10`, `fh = 5`, order 4 at 100 Hz, on
undesigned empty parameters, the callee being the design modelled from the specification. -/
theorem C4_invalid_band_amended_witness :
    ∃ r, FilterProvider.filterIIRDesignWith (gms_filter_design_iir zeroNumerics)
          (⟨[0, 0, 0], [0, 0, 0], [0, 0, 0], 1, 0, 0⟩ : IIR_FILTER_PARAMETERS ℚ)
          ⟨IIRFilterParameters.build [] [] [] false 0 0, FILTER_DESIGN_MODEL.BUTTERWORTH,
            FILTER_BAND_TYPE.BANDPASS, 10, 5, 4, 100, false, false⟩ = Outcome.value r
      ∧ r.parameters.isDesigned = false :=
  match C4_invalid_band_amended (gms_filter_design_iir zeroNumerics)
      ⟨[0, 0, 0], [0, 0, 0], [0, 0, 0], 1, 0, 0⟩ 3 (by decide)
      ⟨IIRFilterParameters.build [] [] [] false 0 0, FILTER_DESIGN_MODEL.BUTTERWORTH,
        FILTER_BAND_TYPE.BANDPASS, 10, 5, 4, 100, false, false⟩
      (Or.inl rfl) (by norm_num) (by decide) (by decide)
      (fun c hb hf ho => design_invalid_band zeroNumerics c hb hf (by rw [ho]; decide)) with
  | ⟨r, h1, h2, _⟩ => ⟨r, h1, h2⟩

/-- C5 as stated fails for every capacity the fixed-width arrays may have: whatever the
capacity, some order within `int` (here `capacity + 1`, or `INT_MAX` for a capacity beyond
`int`) needs more coefficients than the arrays hold, so a valid LOWPASS description of that
order (cutoff 5 Hz at 100 Hz, undesigned empty parameters) does not come back designed with
`(order + 1) / 2` sections. -/
theorem C5_counterexample :
    ¬ ∃ (cap : Nat) (uninit : IIR_FILTER_PARAMETERS ℚ) (num : DesignNumerics ℚ),
        uninit.hasCapacity cap
          ∧ ∀ order : Int, 1 ≤ order → order ≤ INT_MAX →
              ∃ r, FilterProvider.filterIIRDesign num uninit
                    ⟨IIRFilterParameters.build [] [] [] false 0 0,
                      FILTER_DESIGN_MODEL.BUTTERWORTH, FILTER_BAND_TYPE.LOWPASS, 5, 5, order,
                      100, false, false⟩ = Outcome.value r
                ∧ r.parameters.isDesigned = true
                ∧ r.parameters.numberOfSos = (order + 1) / 2 := by
  rintro ⟨cap, uninit, num, hu, h⟩
  have hmax : (INT_MAX : Int) = 2147483647 := rfl
  have hrange : ∀ order : Int,
      (⟨IIRFilterParameters.build [] [] [] false 0 0, FILTER_DESIGN_MODEL.BUTTERWORTH,
        FILTER_BAND_TYPE.LOWPASS, 5, 5, order, 100, false, false⟩ :
          LinearIIRFilterDescription ℚ).parameters.inRange cap := by
    intro order
    have e : (0 : Int) * 3 = 0 := rfl
    refine ⟨?_, ?_, ?_, ?_, ?_, ?_⟩ <;>
      simp only [IIRFilterParameters.build, e, List.length_nil, Nat.cast_zero, le_refl]
    · decide
    · decide
    · exact Int.ofNat_nonneg cap
  by_cases hc : (cap : Int) + 1 ≤ INT_MAX
  · obtain ⟨r, hr, -, hn⟩ := h (cap + 1) (by omega) hc
    have hfit := (filterIIRDesign_value_fits num uninit _ r cap hu (hrange _) hr).1
    rw [hn] at hfit
    omega
  · obtain ⟨r, hr, -, hn⟩ := h INT_MAX (by decide) (le_refl _)
    have hfit := (filterIIRDesign_value_fits num uninit _ r cap hu (hrange _) hr).2
    rw [hn, hmax] at hfit
    omega

/-- C5, amended: for every LOWPASS or HIGHPASS description of order `n ≥ 1` with a positive
sample rate and a required cutoff that is positive and below half the sample rate, on whose
parameters every access of `to_cstruct` is in range and whose `3 * ((n + 1) / 2)`
coefficients fit the capacity of the arrays (a capacity that is itself an `int`),
`filterIIRDesign` returns a description whose parameters have `isDesigned = true` and
`numberOfSos = (n + 1) / 2`, that is `n / 2` rounded up. -/
theorem C5_section_count_amended {α : Type} [LinearOrderedField α] (num : DesignNumerics α)
    (uninit : IIR_FILTER_PARAMETERS α) (cap : Nat) (hu : uninit.hasCapacity cap)
    (hcap : (cap : Int) ≤ INT_MAX) (d : LinearIIRFilterDescription α)
    (hb : d.bandType = FILTER_BAND_TYPE.LOWPASS ∨ d.bandType = FILTER_BAND_TYPE.HIGHPASS)
    (ho : 1 ≤ d.filterOrder) (hfs : 0 < d.sampleRate)
    (hv : ∀ f ∈ requiredCutoffs d.bandType d.cutoffFrequencyLow d.cutoffFrequencyHigh,
      0 < f ∧ f < d.sampleRate / 2)
    (hr : d.parameters.inRange cap) (hfit : 3 * ((d.filterOrder + 1) / 2) ≤ cap) :
    ∃ r, FilterProvider.filterIIRDesign num uninit d = Outcome.value r
      ∧ r.parameters.isDesigned = true
      ∧ r.parameters.numberOfSos = (d.filterOrder + 1) / 2 := by
  obtain ⟨c, hc, hccap, -, hband, hord, hlow, hhigh, hrate⟩ :=
    desc_to_cstruct_of_inRange uninit d cap hu hr
  have hb' : c.band_type = FILTER_BAND_TYPE.LOWPASS ∨ c.band_type = FILTER_BAND_TYPE.HIGHPASS := by
    rw [hband]
    exact hb
  have h1 : invalidBand c.band_type c.cutoff_frequency_low c.cutoff_frequency_high = false := by
    rw [hband, hlow, hhigh]
    exact invalidBand_lowhigh_false _ _ _ hb (fun f hf => (hv f hf).1)
  have h2 : invalidSampleRate c.band_type c.cutoff_frequency_low c.cutoff_frequency_high
      c.sample_rate = false := by
    rw [hband, hlow, hhigh, hrate]
    exact invalidSampleRate_lowhigh_false _ _ _ _ hb hfs (fun f hf => (hv f hf).2)
  obtain ⟨s, hs, hnum, hflag, -, -⟩ :=
    design_lowhigh_success num c cap hccap hb' (by rw [hord]; exact ho) h1 h2
      (by rw [hord]; exact hfit)
  have hscap := design_success_capacity num c s cap hccap hs
  rw [hord] at hnum
  have hfrom := from_cstruct_of_le s.iir_filter_parameters cap hscap
    (by rw [hnum]; omega) (by rw [hnum]; omega) hcap
  unfold FilterProvider.filterIIRDesign FilterProvider.filterIIRDesignWith
  simp only [hc, hs, LinearIIRFilterDescription.from_cstruct, hfrom]
  refine ⟨_, rfl, ?_, ?_⟩
  · dsimp only
    rw [hflag]
    rfl
  · exact hnum

/-- Witness for C5 as amended: LOWPASS, order 4, cutoff 5 Hz, sample rate 100 Hz
gives two sections. -/
theorem C5_section_count_amended_witness :
    ∃ r, FilterProvider.filterIIRDesign zeroNumerics
          (⟨[7, 7, 7, 7, 7, 7], [7, 7, 7, 7, 7, 7], [7, 7, 7, 7, 7, 7], 1, 9, 3⟩ :
            IIR_FILTER_PARAMETERS ℚ)
          ⟨IIRFilterParameters.build [] [] [] false 0 0, FILTER_DESIGN_MODEL.BUTTERWORTH,
            FILTER_BAND_TYPE.LOWPASS, 5, 5, 4, 100, false, false⟩ = Outcome.value r
      ∧ r.parameters.isDesigned = true
      ∧ r.parameters.numberOfSos = 2 :=
  C5_section_count_amended zeroNumerics ⟨[7, 7, 7, 7, 7, 7], [7, 7, 7, 7, 7, 7], [7, 7, 7, 7, 7, 7], 1, 9, 3⟩
    6 (by decide) (by decide)
    ⟨IIRFilterParameters.build [] [] [] false 0 0, FILTER_DESIGN_MODEL.BUTTERWORTH,
      FILTER_BAND_TYPE.LOWPASS, 5, 5, 4, 100, false, false⟩
    (Or.inl rfl) (by decide) (by norm_num) (by simp [requiredCutoffs]; norm_num) (by decide)
    (by decide)


/-! ## The claim on the analog prototype -/

end GmsFilters
